import Mathlib

/-!
Shallow embedding of the asynchronous job fan-out subsystem of the
elevensys-cdk repository: the job admission handler (POST /jobs), the
ticket-worker queue processor, the job status reader (GET /jobs/status),
and the shared utilities they use (`parseDates`, the response helpers).

External collaborators (DynamoDB, SQS, the upstream Jira API) are modelled
by explicit effect traces and outcome flags: a store/queue call either
performs its documented mutation or raises, and the admission handler's
store/queue calls are modelled as succeeding (the spec treats the store and
queue as external capability interfaces).  JavaScript numbers holding the
counters are modelled as `Nat` (they only ever hold small non-negative
counts).  The job-status progress computation runs in JavaScript's IEEE-754
binary64 arithmetic; it is modelled bit-exactly by integer-computable
dyadics: round-to-nearest-even division and multiplication with a 53-bit
significand over the exponent range `[-80, 80]` (counters held in a job
record are integral doubles, hence at most `2^53`, so every intermediate
value sits in that range), and
ECMAScript `Math.round` as exact half-up rounding of the resulting double.
-/

namespace Elevensys

/-- A Jira ticket line item (src/resources/shared/models/types.ts). -/
structure Ticket where
  ticketId : String
  timeSpend : String
  description : String
  typeOfWork : String
deriving DecidableEq, Repr

/-- A work-item message placed on the queue by the admission handler
(src/resources/shared/models/types.ts plus the `jiraInstance` field the
admission handler adds when building the message). -/
structure TicketMessage where
  jobId : String
  username : String
  date : String
  ticket : Ticket
  token : String
  jiraInstance : String
deriving DecidableEq, Repr

/-- One entry of the `errors` list of a job record. -/
structure ErrorEntry where
  ticketId : String
  date : String
  error : String
deriving DecidableEq, Repr

/-- The Job Record stored in DynamoDB, keyed by `jobId`
(src/resources/shared/models/types.ts `JobStatus`).  `status` holds one of
the string literals "in-progress", "completed", "failed" exactly as the
TypeScript union type does. -/
structure JobStatus where
  jobId : String
  total : Nat
  processed : Nat
  failed : Nat
  status : String
  createdAt : String
  updatedAt : Option String
  errors : List ErrorEntry
deriving DecidableEq, Repr

/-- Error detail attached to a 4xx/5xx response (responseUtils). -/
structure ErrorDetail where
  code : Option String
  detail : Option String
deriving DecidableEq, Repr

/-- A formatted API Gateway response (responseUtils `createResponse`),
parametrised by the type of the optional `data` payload. -/
structure APIGatewayProxyResult (α : Type) where
  statusCode : Nat
  message : String
  data : Option α
  errors : Option (List ErrorDetail)
deriving DecidableEq, Repr

/-- responseUtils `createResponse`. -/
def createResponse (statusCode : Nat) (message : String) (data : Option α)
    (errs : Option (List ErrorDetail)) : APIGatewayProxyResult α :=
  { statusCode := statusCode, message := message, data := data, errors := errs }

/-- responseUtils `successResponse`: HTTP 200. -/
def successResponse (message : String) (data : Option α) : APIGatewayProxyResult α :=
  createResponse 200 message data none

/-- responseUtils `badRequestResponse`: HTTP 400. -/
def badRequestResponse (message : String) : APIGatewayProxyResult α :=
  createResponse 400 message none none

/-- responseUtils `notFoundResponse`: HTTP 404. -/
def notFoundResponse (message : String) : APIGatewayProxyResult α :=
  createResponse 404 message none none

/-- responseUtils `serverErrorResponse`: HTTP 500. -/
def serverErrorResponse : APIGatewayProxyResult α :=
  createResponse 500 "Internal Server Error" none none

/-- Characters removed by JavaScript `String.prototype.trim`
(ECMAScript WhiteSpace and LineTerminator). -/
def isJsWhitespace (c : Char) : Bool :=
  c = ' ' || c = '\t' || c = '\n' || c = '\r' ||
  c = '\x0b' || c = '\x0c' ||
  c.val = 0xa0 || c.val = 0x2028 || c.val = 0x2029 || c.val = 0xfeff

/-- JavaScript `String.prototype.trim` on the character list. -/
def trimChars (cs : List Char) : List Char :=
  ((cs.dropWhile isJsWhitespace).reverse.dropWhile isJsWhitespace).reverse

/-- JavaScript `String.prototype.trim`. -/
def jsTrim (s : String) : String :=
  ⟨trimChars s.data⟩

/-- JavaScript `String.prototype.split(',')`: split at every comma, keeping
empty fields (on the character list). -/
def splitCommaAux : List Char → List Char → List (List Char)
  | [], acc => [acc.reverse]
  | c :: cs, acc =>
    if c = ',' then acc.reverse :: splitCommaAux cs []
    else splitCommaAux cs (c :: acc)

/-- JavaScript `datesString.split(',')`. -/
def splitComma (s : String) : List String :=
  (splitCommaAux s.data []).map fun cs => ⟨cs⟩

/-- src/resources/shared/utils/dateUtils.ts `parseDates`:
`datesString.split(',').map((date) => date.trim())`. -/
def parseDates (datesString : String) : List String :=
  (splitComma datesString).map jsTrim

/-- Number of commas in a string. -/
def countCommas (s : String) : Nat :=
  s.data.count ','

/-- Whether `2^e ≤ a/b`, decided in integer arithmetic. -/
def exp2Le (a b : ℕ) (e : ℤ) : Bool :=
  if 0 ≤ e then decide (b * 2 ^ e.toNat ≤ a) else decide (b ≤ a * 2 ^ (-e).toNat)

/-- Fixed-depth integer binary search for `floor(log2(a/b))` inside
`[-80, 80]` — the exponent range covered by binary64 values arising from
integral-double counter ratios.  Every step keeps the invariant
`2^lo ≤ a/b`. -/
def flog2Search (a b : ℕ) : ℕ → ℤ → ℤ → ℤ
  | 0, lo, _ => lo
  | d + 1, lo, hi =>
    if lo + 1 < hi then
      if exp2Le a b ((lo + hi) / 2) then flog2Search a b d ((lo + hi) / 2) hi
      else flog2Search a b d lo ((lo + hi) / 2)
    else lo

/-- `floor(log2(a/b))` for positive rationals in the counter-ratio range. -/
def flog2 (a b : ℕ) : ℤ :=
  flog2Search a b 10 (-80) 80

/-- Round `num/den` to the nearest integer, ties to even — IEEE-754
round-to-nearest-even significand rounding. -/
def rnHalfEven (num den : ℕ) : ℕ :=
  let q := num / den
  let r := num % den
  if 2 * r < den then q
  else if den < 2 * r then q + 1
  else if q % 2 = 0 then q else q + 1

/-- A binary64 value `sig · 2^(exp - 52)` (53-bit significand scale). -/
structure Dyadic where
  sig : ℕ
  exp : ℤ
deriving DecidableEq, Repr

/-- The rational value of a dyadic. -/
def Dyadic.toRat (d : Dyadic) : ℚ :=
  (d.sig : ℚ) * (2 : ℚ) ^ (d.exp - 52)

/-- Numerator of `a/b` rescaled to the binade `e` (value `(a/b)·2^(52-e)`). -/
def fl64num (a : ℕ) (e : ℤ) : ℕ :=
  if e ≤ 52 then a * 2 ^ (52 - e).toNat else a

/-- Denominator of `a/b` rescaled to the binade `e`. -/
def fl64den (b : ℕ) (e : ℤ) : ℕ :=
  if e ≤ 52 then b else b * 2 ^ (e - 52).toNat

/-- Round-to-nearest-even binary64 value of the positive rational `a/b`:
the significand is the half-even rounding of `(a/b)·2^(52-e)` at the
binade `e = floor(log2(a/b))`. -/
def fl64 (a b : ℕ) : Dyadic :=
  { sig := rnHalfEven (fl64num a (flog2 a b)) (fl64den b (flog2 a b)),
    exp := flog2 a b }

/-- Correctly rounded binary64 division of the double `d` by the
integral double `n` (the reader's `(processed + failed) / total`). -/
def dyadicDivNat (d : Dyadic) (n : ℕ) : Dyadic :=
  if 52 ≤ d.exp then fl64 (d.sig * 2 ^ (d.exp - 52).toNat) n
  else fl64 d.sig (n * 2 ^ (52 - d.exp).toNat)

/-- Correctly rounded binary64 multiplication of the double `d` by 100. -/
def dyadicMul100 (d : Dyadic) : Dyadic :=
  if 52 ≤ d.exp then fl64 (d.sig * 100 * 2 ^ (d.exp - 52).toNat) 1
  else fl64 (d.sig * 100) (2 ^ (52 - d.exp).toNat)

/-- ECMAScript `Math.round` of the non-negative double `d`: the nearest
integer, ties toward +∞, i.e. `⌊value + 1/2⌋`, computed in integers. -/
def dyadicRound (d : Dyadic) : ℕ :=
  if 52 ≤ d.exp then d.sig * 2 ^ (d.exp - 52).toNat
  else (2 * d.sig + 2 ^ (52 - d.exp).toNat) / 2 ^ (53 - d.exp).toNat

/-- The job-status lambda's `Math.round(((processed + failed) / total) * 100)`
evaluated in binary64: the (integral) counter sum `m`, rounded to a double
as the addition would round it, is divided by `total` with correct
rounding, multiplied by 100 with correct rounding, and rounded half-up. -/
def jsProgress (m n : ℕ) : ℕ :=
  if m = 0 then 0
  else dyadicRound (dyadicMul100 (dyadicDivNat (fl64 m 1) n))

namespace JobStatusLambda

/-- The query-string portion of the API Gateway event read by the job
status handler (`event.queryStringParameters?.jobId`). -/
structure StatusEvent where
  jobId : Option String
deriving DecidableEq, Repr

/-- The snapshot returned on success: the stored record spread together
with the derived `progress` field. -/
structure JobSnapshot where
  record : JobStatus
  progress : Nat
deriving DecidableEq, Repr

/-- A read issued against the DynamoDB table. -/
inductive StoreAccess where
  | getJob (jobId : String)
deriving DecidableEq, Repr

/-- Progress percentage computed by the job status handler
(src/resources/lambda/job-status-lambda/index.ts lines 56-61):
`total > 0 ? Math.round(((processed + failed) / total) * 100) : 0`,
with the arithmetic carried out in binary64 as JavaScript does. -/
def progressOf (r : JobStatus) : Nat :=
  if r.total > 0 then jsProgress (r.processed + r.failed) r.total else 0

/-- src/resources/lambda/job-status-lambda/index.ts `handler`.  The store
is modelled as the function backing DynamoDB `GetCommand`; the returned
list records which keys were read. -/
def handler (event : StatusEvent) (store : String → Option JobStatus) :
    APIGatewayProxyResult JobSnapshot × List StoreAccess :=
  match event.jobId with
  | none => (badRequestResponse "Missing required query parameter: jobId", [])
  | some jobId =>
    if jobId.isEmpty then
      (badRequestResponse "Missing required query parameter: jobId", [])
    else
      match store jobId with
      | none =>
        (notFoundResponse ("Job " ++ jobId ++ " not found"), [StoreAccess.getJob jobId])
      | some jobStatus =>
        (successResponse "Job status retrieved successfully"
          (some { record := jobStatus, progress := progressOf jobStatus }),
         [StoreAccess.getJob jobId])

end JobStatusLambda


namespace TicketWorker

/-- The success-path DynamoDB update of `processRecord`
(src ticket-worker lines 53-67): `SET processed = processed + 1,
updatedAt = now`. -/
def incrementProcessed (r : JobStatus) (now : String) : JobStatus :=
  { r with processed := r.processed + 1, updatedAt := some now }

/-- The failure-path DynamoDB update of `processRecord`
(src ticket-worker lines 105-128): `SET failed = failed + 1,
updatedAt = now, errors = list_append(if_not_exists(errors, []), [e])`. -/
def incrementFailed (r : JobStatus) (e : ErrorEntry) (now : String) : JobStatus :=
  { r with failed := r.failed + 1, updatedAt := some now, errors := r.errors ++ [e] }

/-- The terminal-status DynamoDB update: `SET status = st, updatedAt = now`. -/
def setTerminal (r : JobStatus) (st : String) (now : String) : JobStatus :=
  { r with status := st, updatedAt := some now }

/-- Success-path completion check (src ticket-worker lines 69-94): re-read
the record and, if `processed + failed >= total`, write
`failed > 0 ? 'failed' : 'completed'`. -/
def checkCompleteSuccess (r : JobStatus) (now : String) : JobStatus :=
  if r.processed + r.failed ≥ r.total then
    setTerminal r (if r.failed > 0 then "failed" else "completed") now
  else r

/-- Failure-path completion check (src ticket-worker lines 130-155):
re-read the record and, if `processed + failed >= total`, write `'failed'`. -/
def checkCompleteFailure (r : JobStatus) (now : String) : JobStatus :=
  if r.processed + r.failed ≥ r.total then setTerminal r "failed" now else r

/-- Outcome of the upstream call for one work item: success, or a
permanent failure carrying the error entry the catch block appends. -/
inductive ItemOutcome where
  | success
  | failure (e : ErrorEntry)

/-- The counter update a completion step performs before its
completion check. -/
def incStep (o : ItemOutcome) (now : String) (r : JobStatus) : JobStatus :=
  match o with
  | ItemOutcome.success => incrementProcessed r now
  | ItemOutcome.failure e => incrementFailed r e now

/-- One full completion step of `processRecord` on the job record:
counter update followed by the completion check of the same path. -/
def completeItem (o : ItemOutcome) (now : String) (r : JobStatus) : JobStatus :=
  match o with
  | ItemOutcome.success => checkCompleteSuccess (incrementProcessed r now) now
  | ItemOutcome.failure e => checkCompleteFailure (incrementFailed r e now) now

/-- A sequence of completion steps (any interleaving of outcomes, with
duplicate deliveries appearing as repeated steps) applied to the record. -/
def runItems (steps : List (ItemOutcome × String)) (r : JobStatus) : JobStatus :=
  steps.foldl (fun cur s => completeItem s.1 s.2 cur) r

end TicketWorker


namespace TicketWorker

/-- One received queue record together with the outcome of each fallible
operation its processing performs: whether `JSON.parse(record.body)`
succeeds, whether the upstream Jira call resolves, whether the
success-path counter update resolves, and whether the failure-path
counter update resolves.  The completion-check read and status write are
modelled as reliable.  `errorMessage` is the message of the error the
catch block observes. -/
structure WorkRecord where
  message : TicketMessage
  parses : Bool
  upstreamOk : Bool
  processedUpdateOk : Bool
  failedUpdateOk : Bool
  errorMessage : String
deriving DecidableEq, Repr

/-- src ticket-worker `processRecord`: try the upstream call and the
success-path update, falling into the catch block on any raise; the catch
block re-parses the body, performs the failure-path update and its
completion check.  A raise escaping the catch block (unparseable body, or
the failure-path update itself raising) is the `Except.error` case. -/
def processRecord (rec : WorkRecord) (now : String) (r : JobStatus) :
    Except Unit JobStatus :=
  if rec.parses then
    if rec.upstreamOk && rec.processedUpdateOk then
      Except.ok (checkCompleteSuccess (incrementProcessed r now) now)
    else
      if rec.failedUpdateOk then
        Except.ok (checkCompleteFailure
          (incrementFailed r
            { ticketId := rec.message.ticket.ticketId, date := rec.message.date,
              error := rec.errorMessage } now) now)
      else Except.error ()
  else Except.error ()

/-- src ticket-worker `handler`: process the batch records sequentially in
order; an exception from `processRecord` propagates and ends the
invocation.  Returns the final record state, how many batch records were
fully processed, and whether the invocation was aborted by a raise. -/
def handler (recs : List WorkRecord) (now : String) (r : JobStatus) :
    JobStatus × Nat × Bool :=
  match recs with
  | [] => (r, 0, false)
  | rec :: rest =>
    match processRecord rec now r with
    | Except.ok r1 =>
      let out := handler rest now r1
      (out.1, out.2.1 + 1, out.2.2)
    | Except.error _ => (r, 0, true)

/-- A record on which `processRecord` raises instead of resolving: its
body does not parse, or its try block fails and the failure-path update
also raises. -/
def throwsOn (rec : WorkRecord) : Bool :=
  !rec.parses || (!(rec.upstreamOk && rec.processedUpdateOk) && !rec.failedUpdateOk)

end TicketWorker


namespace CreateJobLambda

/-- The shape of the `tickets` field of the parsed JSON body: absent (or
another falsy value), present but not an array, or an array. -/
inductive JsonTickets where
  | absent
  | notArray
  | array (tickets : List Ticket)
deriving DecidableEq, Repr

/-- The parsed JSON request body (`CreateJobRequest` in types.ts); each
field may be absent. -/
structure CreateJobRequest where
  username : Option String
  dates : Option String
  tickets : JsonTickets
  jiraInstance : Option String
deriving DecidableEq, Repr

/-- The raw request body: either a string `JSON.parse` rejects, or one it
parses to a request object. -/
inductive RequestBody where
  | malformed
  | parsed (req : CreateJobRequest)
deriving DecidableEq, Repr

/-- The parts of the API Gateway event the admission handler reads:
`event.body` (`none` models an absent or empty body) and the merged
`event.headers?.Authorization || event.headers?.authorization`. -/
structure CreateJobEvent where
  body : Option RequestBody
  authHeader : Option String
deriving DecidableEq, Repr

/-- JavaScript falsiness of a possibly-absent string: absent or empty. -/
def falsyString : Option String → Bool
  | none => true
  | some s => s.isEmpty

/-- Token extraction (admission handler):
`authHeader.startsWith('Bearer ') ? authHeader.substring(7) : authHeader`,
expressed on the character list (the prefix is ASCII, so dropping 7
characters is dropping 7 UTF-16 units). -/
def bearerToken (authHeader : String) : String :=
  if "Bearer ".data.isPrefixOf authHeader.data then ⟨authHeader.data.drop 7⟩
  else authHeader

/-- The `data` payload of the 200 response: `{jobId, total}`. -/
structure CreateJobData where
  jobId : String
  total : Nat
deriving DecidableEq, Repr

/-- A side effect the admission handler performs, in order: the DynamoDB
`PutCommand` of the job record, and one SQS `SendMessageCommand` per
work item. -/
inductive AdmissionEffect where
  | putJob (record : JobStatus)
  | sendMessage (message : TicketMessage)
deriving DecidableEq, Repr

/-- The per-ticket validity filter of the admission handler:
`!ticket.ticketId || !ticket.timeSpend || !ticket.description ||
!ticket.typeOfWork`. -/
def invalidTicket (t : Ticket) : Bool :=
  t.ticketId.isEmpty || t.timeSpend.isEmpty || t.description.isEmpty ||
    t.typeOfWork.isEmpty

/-- The work-item messages built by the nested
`for (date of dates) for (ticket of tickets)` loops. -/
def messagesFor (jobId username token jiraInstance : String)
    (dates : List String) (tickets : List Ticket) : List TicketMessage :=
  dates.flatMap fun date => tickets.map fun ticket =>
    { jobId := jobId, username := username, date := date, ticket := ticket,
      token := token, jiraInstance := jiraInstance }

/-- src admission lambda `handler` (POST /jobs).  `jobId` models the
`uuidv7()` draw and `createdAt` the `new Date().toISOString()` call; the
DynamoDB put and the SQS sends are returned as an ordered effect trace
(the put is awaited before any send is issued).  The final catch is
reached when `JSON.parse` rejects, producing the 500 response. -/
def handler (event : CreateJobEvent) (jobId createdAt : String) :
    APIGatewayProxyResult CreateJobData × List AdmissionEffect :=
  match event.body with
  | none => (badRequestResponse "Missing request body", [])
  | some body =>
    if falsyString event.authHeader then
      (badRequestResponse "Missing Authorization header", [])
    else
      let token := bearerToken (event.authHeader.getD "")
      if token.isEmpty then
        (badRequestResponse "Invalid Authorization header format", [])
      else
        match body with
        | RequestBody.malformed => (serverErrorResponse, [])
        | RequestBody.parsed req =>
          if falsyString req.username then
            (badRequestResponse "Missing required field: username", [])
          else if falsyString req.dates then
            (badRequestResponse "Missing required field: dates", [])
          else if falsyString req.jiraInstance then
            (badRequestResponse "Missing required field: jiraInstance", [])
          else if req.jiraInstance.getD "" ≠ "jira3" ∧
              req.jiraInstance.getD "" ≠ "jira9" ∧
              req.jiraInstance.getD "" ≠ "jiradc" then
            (badRequestResponse
              "Invalid jiraInstance: must be, \"jira3\", \"jira9\", or \"jiradc\"", [])
          else
            match req.tickets with
            | JsonTickets.absent =>
              (badRequestResponse
                "Missing or invalid tickets: must provide a tickets array", [])
            | JsonTickets.notArray =>
              (badRequestResponse
                "Missing or invalid tickets: must provide a tickets array", [])
            | JsonTickets.array tickets =>
              if tickets.length = 0 then
                (badRequestResponse
                  "Empty tickets array: at least one ticket is required", [])
              else if (tickets.filter invalidTicket).length > 0 then
                (badRequestResponse
                  "Invalid ticket format: each ticket must have ticketId, timeSpend, description, and typeOfWork",
                 [])
              else
                let dates := parseDates (req.dates.getD "")
                let totalTasks := dates.length * tickets.length
                let jobStatus : JobStatus :=
                  { jobId := jobId, total := totalTasks, processed := 0,
                    failed := 0, status := "in-progress",
                    createdAt := createdAt, updatedAt := none, errors := [] }
                let messages := messagesFor jobId (req.username.getD "") token
                  (req.jiraInstance.getD "") dates tickets
                (successResponse "Job created successfully. Processing started."
                  (some { jobId := jobId, total := totalTasks }),
                 AdmissionEffect.putJob jobStatus ::
                   messages.map AdmissionEffect.sendMessage)

/-- The event fails one of the admission handler's explicit validation
checks (missing body, falsy Authorization header, empty bearer token,
falsy username/dates/jiraInstance, jiraInstance outside the enumeration,
missing or non-array or empty or ill-formed tickets).  A body that is
present but rejected by `JSON.parse` is not a validation failure. -/
def failsValidation (event : CreateJobEvent) : Bool :=
  match event.body with
  | none => true
  | some body =>
    falsyString event.authHeader ||
    (bearerToken (event.authHeader.getD "")).isEmpty ||
    match body with
    | RequestBody.malformed => false
    | RequestBody.parsed req =>
      falsyString req.username || falsyString req.dates ||
      falsyString req.jiraInstance ||
      decide (req.jiraInstance.getD "" ≠ "jira3" ∧
        req.jiraInstance.getD "" ≠ "jira9" ∧
        req.jiraInstance.getD "" ≠ "jiradc") ||
      (match req.tickets with
       | JsonTickets.absent => true
       | JsonTickets.notArray => true
       | JsonTickets.array tickets =>
         decide (tickets.length = 0) ||
           decide ((tickets.filter invalidTicket).length > 0))

/-- The event passes every check before the tickets check, and its
tickets field is missing or not an array. -/
def ticketsMissing (event : CreateJobEvent) : Bool :=
  match event.body with
  | none => false
  | some body =>
    !falsyString event.authHeader &&
    !(bearerToken (event.authHeader.getD "")).isEmpty &&
    match body with
    | RequestBody.malformed => false
    | RequestBody.parsed req =>
      !falsyString req.username && !falsyString req.dates &&
      !falsyString req.jiraInstance &&
      !(decide (req.jiraInstance.getD "" ≠ "jira3" ∧
        req.jiraInstance.getD "" ≠ "jira9" ∧
        req.jiraInstance.getD "" ≠ "jiradc")) &&
      (match req.tickets with
       | JsonTickets.absent => true
       | JsonTickets.notArray => true
       | JsonTickets.array _ => false)

end CreateJobLambda

/-- A concrete ticket, as in the spec's worked example. -/
def sampleTicket : Ticket :=
  { ticketId := "AB-1", timeSpend := "2", description := "x", typeOfWork := "Dev" }

/-- A concrete work-item message for the sample ticket. -/
def sampleMessage : TicketMessage :=
  { jobId := "job-1", username := "alice", date := "1/Jan/26",
    ticket := sampleTicket, token := "tok123", jiraInstance := "jiradc" }

/-- A freshly created job record with a single work item. -/
def dupJob : JobStatus :=
  { jobId := "job-dup", total := 1, processed := 0, failed := 0,
    status := "in-progress", createdAt := "t0", updatedAt := none, errors := [] }

/-- A job record whose single item was delivered (and counted) twice. -/
def overJob : JobStatus :=
  { jobId := "job-over", total := 1, processed := 2, failed := 0,
    status := "completed", createdAt := "t0", updatedAt := none, errors := [] }

/-- A half-finished job record with two work items. -/
def halfJob : JobStatus :=
  { jobId := "job-half", total := 2, processed := 1, failed := 0,
    status := "in-progress", createdAt := "t0", updatedAt := none, errors := [] }

/-- A job record at a half-way progress point: 23 of 40 items counted, so
the exact percentage is 57.5 and the binary64 evaluation rounds down. -/
def job2340 : JobStatus :=
  { jobId := "job-2340", total := 40, processed := 23, failed := 0,
    status := "in-progress", createdAt := "t0", updatedAt := none, errors := [] }

namespace TicketWorker

/-- A record whose upstream call fails and whose failure-path store
update also raises: `processRecord` raises on it. -/
def throwingRecord : WorkRecord :=
  { message := sampleMessage, parses := true, upstreamOk := false,
    processedUpdateOk := true, failedUpdateOk := false,
    errorMessage := "store down" }

/-- A record that processes successfully end to end. -/
def okRecord : WorkRecord :=
  { message := sampleMessage, parses := true, upstreamOk := true,
    processedUpdateOk := true, failedUpdateOk := true, errorMessage := "" }

/-- A record whose upstream call fails but whose failure-path update
resolves: an ordinary item failure. -/
def failingUpstreamRecord : WorkRecord :=
  { message := sampleMessage, parses := true, upstreamOk := false,
    processedUpdateOk := true, failedUpdateOk := true,
    errorMessage := "Request failed with status code 500" }

end TicketWorker

namespace CreateJobLambda

/-- A fully valid POST /jobs event: two dates, one ticket, valid
instance, bearer token. -/
def sampleEvent : CreateJobEvent :=
  { body := some (RequestBody.parsed
      { username := some "alice", dates := some "1/Jan/26,2/Jan/26",
        tickets := JsonTickets.array [sampleTicket],
        jiraInstance := some "jiradc" }),
    authHeader := some "Bearer tok123" }

/-- A POST /jobs event that is valid except that its `tickets` field is
missing. -/
def absentTicketsEvent : CreateJobEvent :=
  { body := some (RequestBody.parsed
      { username := some "alice", dates := some "1/Jan/26",
        tickets := JsonTickets.absent, jiraInstance := some "jiradc" }),
    authHeader := some "Bearer tok123" }

/-- A valid POST /jobs event whose `dates` string is a single comma. -/
def commaEvent : CreateJobEvent :=
  { body := some (RequestBody.parsed
      { username := some "alice", dates := some ",",
        tickets := JsonTickets.array [sampleTicket],
        jiraInstance := some "jiradc" }),
    authHeader := some "Bearer tok123" }

end CreateJobLambda

theorem splitCommaAux_length (cs : List Char) (acc : List Char) :
    (splitCommaAux cs acc).length = cs.count ',' + 1 := by
  induction cs generalizing acc with
  | nil => simp [splitCommaAux]
  | cons c cs ih =>
    by_cases h : c = ','
    · subst h
      simp [splitCommaAux, ih, List.count_cons]
    · simp [splitCommaAux, h, ih, List.count_cons]

theorem parseDates_length (s : String) :
    (parseDates s).length = countCommas s + 1 := by
  simp [parseDates, splitComma, countCommas, splitCommaAux_length]

theorem exp2Le_le (a b : ℕ) (e : ℤ) (hb : 0 < b) (h : exp2Le a b e = true) :
    (2:ℚ)^e ≤ (a:ℚ)/b := by
  have hbq : (0:ℚ) < (b:ℚ) := by exact_mod_cast hb
  unfold exp2Le at h
  by_cases he : 0 ≤ e
  · rw [if_pos he, decide_eq_true_eq] at h
    rw [le_div_iff hbq]
    have hcast : ((b * 2^e.toNat : ℕ) : ℚ) ≤ (a:ℚ) := by exact_mod_cast h
    push_cast at hcast
    rw [← zpow_natCast (2:ℚ) e.toNat, Int.toNat_of_nonneg he] at hcast
    linarith
  · rw [if_neg he, decide_eq_true_eq] at h
    push_neg at he
    rw [le_div_iff hbq]
    have hpow : (0:ℚ) < (2:ℚ)^(-e).toNat := by positivity
    have heq : ((2:ℚ)^(-e).toNat)⁻¹ = (2:ℚ)^e := by
      rw [← zpow_natCast (2:ℚ) (-e).toNat, Int.toNat_of_nonneg (by omega), zpow_neg,
        inv_inv]
    rw [← heq, inv_mul_le_iff hpow]
    have hcast : ((b : ℕ) : ℚ) ≤ ((a * 2^(-e).toNat : ℕ) : ℚ) := by exact_mod_cast h
    push_cast at hcast
    linarith
theorem flog2Search_le (a b : ℕ) (hb : 0 < b) :
    ∀ (d : ℕ) (lo hi : ℤ), (2:ℚ)^lo ≤ (a:ℚ)/b →
      (2:ℚ)^(flog2Search a b d lo hi) ≤ (a:ℚ)/b := by
  intro d
  induction d with
  | zero => intro lo hi h; simpa [flog2Search] using h
  | succ d ih =>
    intro lo hi h
    unfold flog2Search
    split
    · split
      · next hmid => exact ih _ _ (exp2Le_le a b _ hb hmid)
      · exact ih _ _ h
    · exact h
theorem flog2_le (a b : ℕ) (hb : 0 < b) (h : (2:ℚ)^(-80:ℤ) ≤ (a:ℚ)/b) :
    (2:ℚ)^(flog2 a b) ≤ (a:ℚ)/b :=
  flog2Search_le a b hb 10 (-80) 80 h
theorem rnHalfEven_bounds (num den : ℕ) (hden : 0 < den) :
    (num:ℚ)/den - 1/2 ≤ (rnHalfEven num den : ℚ)
    ∧ (rnHalfEven num den : ℚ) ≤ (num:ℚ)/den + 1/2 := by
  have hq : (0:ℚ) < (den:ℚ) := by exact_mod_cast hden
  have hsplit : (num:ℚ)/den = ((num / den : ℕ) : ℚ) + ((num % den : ℕ) : ℚ)/den := by
    have hdm : den * (num / den) + num % den = num := Nat.div_add_mod num den
    have hcast : (den:ℚ) * ((num / den : ℕ) : ℚ) + ((num % den : ℕ) : ℚ) = (num:ℚ) := by
      exact_mod_cast hdm
    have hcomb : ((num / den : ℕ) : ℚ) + ((num % den : ℕ) : ℚ)/den
        = ((den:ℚ) * ((num / den : ℕ) : ℚ) + ((num % den : ℕ) : ℚ))/den := by
      field_simp
      ring
    rw [hcomb, hcast]
  have hRn : (0:ℚ) ≤ ((num % den : ℕ) : ℚ)/den := by positivity
  have hRub : ((num % den : ℕ) : ℚ)/den < 1 := by
    rw [div_lt_one hq]
    exact_mod_cast Nat.mod_lt _ hden
  unfold rnHalfEven
  dsimp only
  split_ifs with h1 h2 h3
  · have hR : ((num % den : ℕ) : ℚ)/den ≤ 1/2 := by
      rw [div_le_div_iff hq (by norm_num)]
      have hc : ((2 * (num % den) : ℕ) : ℚ) ≤ ((den : ℕ) : ℚ) := by
        exact_mod_cast le_of_lt h1
      push_cast at hc ⊢
      linarith
    constructor <;> (rw [hsplit]; push_cast; linarith)
  · have hR : (1:ℚ)/2 ≤ ((num % den : ℕ) : ℚ)/den := by
      rw [div_le_div_iff (by norm_num) hq]
      have hc : ((den : ℕ) : ℚ) ≤ ((2 * (num % den) : ℕ) : ℚ) := by
        exact_mod_cast le_of_lt h2
      push_cast at hc ⊢
      linarith
    constructor <;> (rw [hsplit]; push_cast; linarith)
  · have hR : ((num % den : ℕ) : ℚ)/den = 1/2 := by
      rw [div_eq_div_iff (ne_of_gt hq) (by norm_num : (2:ℚ) ≠ 0)]
      have h4 : 2 * (num % den) = den := by omega
      have hc : ((2 * (num % den) : ℕ) : ℚ) = ((den : ℕ) : ℚ) := by exact_mod_cast h4
      push_cast at hc
      push_cast
      linarith
    constructor <;> (rw [hsplit]; push_cast; linarith)
  · have hR : ((num % den : ℕ) : ℚ)/den = 1/2 := by
      rw [div_eq_div_iff (ne_of_gt hq) (by norm_num : (2:ℚ) ≠ 0)]
      have h4 : 2 * (num % den) = den := by omega
      have hc : ((2 * (num % den) : ℕ) : ℚ) = ((den : ℕ) : ℚ) := by exact_mod_cast h4
      push_cast at hc ⊢
      linarith
    constructor <;> (rw [hsplit]; push_cast; linarith)
theorem fl64_scale (a b : ℕ) (e : ℤ) (hb : 0 < b) :
    ((fl64num a e : ℕ) : ℚ) / ((fl64den b e : ℕ) : ℚ) = (a:ℚ)/b * (2:ℚ)^(52 - e) := by
  have hbq : ((b:ℚ)) ≠ 0 := by
    have : (0:ℚ) < (b:ℚ) := by exact_mod_cast hb
    linarith
  unfold fl64num fl64den
  by_cases he : e ≤ 52
  · rw [if_pos he, if_pos he]
    push_cast
    rw [← zpow_natCast (2:ℚ) (52 - e).toNat, Int.toNat_of_nonneg (by omega)]
    field_simp
  · rw [if_neg he, if_neg he]
    push_cast
    rw [← zpow_natCast (2:ℚ) (e - 52).toNat, Int.toNat_of_nonneg (by omega)]
    have h2 : (2:ℚ)^((52:ℤ) - e) = ((2:ℚ)^(e - 52))⁻¹ := by
      rw [← neg_sub e 52, zpow_neg]
    rw [h2]
    have hp : ((2:ℚ)^(e - 52)) ≠ 0 := by positivity
    field_simp
theorem Dyadic.toRat_nonneg (d : Dyadic) : 0 ≤ d.toRat := by
  unfold Dyadic.toRat
  positivity
theorem Dyadic.sig_pos_of_toRat_pos (d : Dyadic) (h : 0 < d.toRat) : 0 < d.sig := by
  rcases Nat.eq_zero_or_pos d.sig with h0 | h0
  · exfalso
    unfold Dyadic.toRat at h
    rw [h0] at h
    simp at h
  · exact h0
theorem fl64_bounds (a b : ℕ) (hb : 0 < b) (hlow : (2:ℚ)^(-80:ℤ) ≤ (a:ℚ)/b) :
    (a:ℚ)/b - ((a:ℚ)/b)/2^52 ≤ (fl64 a b).toRat
    ∧ (fl64 a b).toRat ≤ (a:ℚ)/b + ((a:ℚ)/b)/2^52 := by
  have hfden : 0 < fl64den b (flog2 a b) := by
    unfold fl64den
    split
    · exact hb
    · exact Nat.mul_pos hb (Nat.pos_pow_of_pos _ (by norm_num))
  obtain ⟨hl, hr⟩ := rnHalfEven_bounds (fl64num a (flog2 a b)) (fl64den b (flog2 a b)) hfden
  rw [fl64_scale a b (flog2 a b) hb] at hl hr
  have htoRat : (fl64 a b).toRat
      = ((rnHalfEven (fl64num a (flog2 a b)) (fl64den b (flog2 a b)) : ℕ) : ℚ)
        * (2:ℚ)^(flog2 a b - 52) := rfl
  set e := flog2 a b with hedef
  set s : ℚ := ((rnHalfEven (fl64num a e) (fl64den b e) : ℕ) : ℚ) with hs
  set x : ℚ := (a:ℚ)/b with hx
  have hP : (0:ℚ) < (2:ℚ)^(e - 52) := by positivity
  have hQP : (2:ℚ)^((52:ℤ) - e) * (2:ℚ)^(e - 52) = 1 := by
    rw [← zpow_add₀ (by norm_num : (2:ℚ) ≠ 0)]
    norm_num
  have hE : (2:ℚ)^(e - 52) * 2^(52:ℕ) ≤ x := by
    have h2e : (2:ℚ)^e ≤ x := flog2_le a b hb hlow
    have : (2:ℚ)^(e - 52) * 2^(52:ℕ) = (2:ℚ)^e := by
      rw [← zpow_natCast (2:ℚ) 52, ← zpow_add₀ (by norm_num : (2:ℚ) ≠ 0)]
      norm_num
    linarith [this ▸ h2e]
  rw [htoRat]
  constructor
  · have hmul := mul_le_mul_of_nonneg_right hl (le_of_lt hP)
    have hexpand : (x * (2:ℚ)^((52:ℤ) - e) - 1/2) * (2:ℚ)^(e - 52)
        = x * ((2:ℚ)^((52:ℤ) - e) * (2:ℚ)^(e - 52)) - (2:ℚ)^(e - 52)/2 := by ring
    rw [hexpand, hQP, mul_one] at hmul
    have hx0 : (0:ℚ) ≤ x := le_trans (by positivity) hlow
    have hsmall : (2:ℚ)^(e - 52)/2 ≤ x/2^52 := by
      rw [div_le_div_iff (by norm_num) (by positivity)]
      linarith
    linarith
  · have hmul := mul_le_mul_of_nonneg_right hr (le_of_lt hP)
    have hexpand : (x * (2:ℚ)^((52:ℤ) - e) + 1/2) * (2:ℚ)^(e - 52)
        = x * ((2:ℚ)^((52:ℤ) - e) * (2:ℚ)^(e - 52)) + (2:ℚ)^(e - 52)/2 := by ring
    rw [hexpand, hQP, mul_one] at hmul
    have hx0 : (0:ℚ) ≤ x := le_trans (by positivity) hlow
    have hsmall : (2:ℚ)^(e - 52)/2 ≤ x/2^52 := by
      rw [div_le_div_iff (by norm_num) (by positivity)]
      linarith
    linarith
theorem dyadicDivNat_frac (d : Dyadic) (n : ℕ) (hn : 0 < n) :
    (if 52 ≤ d.exp then ((d.sig * 2 ^ (d.exp - 52).toNat : ℕ) : ℚ) / ((n : ℕ) : ℚ)
     else ((d.sig : ℕ) : ℚ) / ((n * 2 ^ (52 - d.exp).toNat : ℕ) : ℚ))
      = d.toRat / n := by
  have hnq : ((n:ℚ)) ≠ 0 := by
    have : (0:ℚ) < (n:ℚ) := by exact_mod_cast hn
    linarith
  unfold Dyadic.toRat
  by_cases he : 52 ≤ d.exp
  · rw [if_pos he]
    push_cast
    rw [← zpow_natCast (2:ℚ) (d.exp - 52).toNat, Int.toNat_of_nonneg (by omega)]
  · rw [if_neg he]
    push_cast
    rw [← zpow_natCast (2:ℚ) (52 - d.exp).toNat, Int.toNat_of_nonneg (by omega)]
    have h2 : (2:ℚ)^(d.exp - 52) = ((2:ℚ)^((52:ℤ) - d.exp))⁻¹ := by
      rw [← neg_sub (52:ℤ) d.exp, zpow_neg]
    rw [h2]
    have hp : ((2:ℚ)^((52:ℤ) - d.exp)) ≠ 0 := by positivity
    field_simp
    exact Or.inl (mul_comm _ _)
theorem dyadicDivNat_bounds (d : Dyadic) (n : ℕ) (hn : 0 < n)
    (hlow : (2:ℚ)^(-80:ℤ) ≤ d.toRat / n) :
    d.toRat/n - (d.toRat/n)/2^52 ≤ (dyadicDivNat d n).toRat
    ∧ (dyadicDivNat d n).toRat ≤ d.toRat/n + (d.toRat/n)/2^52 := by
  have hfrac := dyadicDivNat_frac d n hn
  unfold dyadicDivNat
  by_cases he : 52 ≤ d.exp
  · rw [if_pos he] at hfrac ⊢
    have := fl64_bounds (d.sig * 2 ^ (d.exp - 52).toNat) n hn (by rw [hfrac]; exact hlow)
    rw [hfrac] at this
    exact this
  · rw [if_neg he] at hfrac ⊢
    have hden : 0 < n * 2 ^ (52 - d.exp).toNat :=
      Nat.mul_pos hn (Nat.pos_pow_of_pos _ (by norm_num))
    have := fl64_bounds d.sig (n * 2 ^ (52 - d.exp).toNat) hden (by rw [hfrac]; exact hlow)
    rw [hfrac] at this
    exact this
theorem dyadicMul100_frac (d : Dyadic) :
    (if 52 ≤ d.exp then ((d.sig * 100 * 2 ^ (d.exp - 52).toNat : ℕ) : ℚ) / ((1 : ℕ) : ℚ)
     else ((d.sig * 100 : ℕ) : ℚ) / ((2 ^ (52 - d.exp).toNat : ℕ) : ℚ))
      = d.toRat * 100 := by
  unfold Dyadic.toRat
  by_cases he : 52 ≤ d.exp
  · rw [if_pos he]
    push_cast
    rw [← zpow_natCast (2:ℚ) (d.exp - 52).toNat, Int.toNat_of_nonneg (by omega)]
    ring
  · rw [if_neg he]
    push_cast
    rw [← zpow_natCast (2:ℚ) (52 - d.exp).toNat, Int.toNat_of_nonneg (by omega)]
    have h2 : (2:ℚ)^(d.exp - 52) = ((2:ℚ)^((52:ℤ) - d.exp))⁻¹ := by
      rw [← neg_sub (52:ℤ) d.exp, zpow_neg]
    rw [h2]
    have hp : ((2:ℚ)^((52:ℤ) - d.exp)) ≠ 0 := by positivity
    field_simp
theorem dyadicMul100_bounds (d : Dyadic)
    (hlow : (2:ℚ)^(-80:ℤ) ≤ d.toRat * 100) :
    d.toRat * 100 - (d.toRat * 100)/2^52 ≤ (dyadicMul100 d).toRat
    ∧ (dyadicMul100 d).toRat ≤ d.toRat * 100 + (d.toRat * 100)/2^52 := by
  have hfrac := dyadicMul100_frac d
  unfold dyadicMul100
  by_cases he : 52 ≤ d.exp
  · rw [if_pos he] at hfrac ⊢
    have := fl64_bounds (d.sig * 100 * 2 ^ (d.exp - 52).toNat) 1 one_pos
      (by rw [hfrac]; exact hlow)
    rw [hfrac] at this
    exact this
  · rw [if_neg he] at hfrac ⊢
    have hden : 0 < 2 ^ (52 - d.exp).toNat := Nat.pos_pow_of_pos _ (by norm_num)
    have := fl64_bounds (d.sig * 100) (2 ^ (52 - d.exp).toNat) hden
      (by rw [hfrac]; exact hlow)
    rw [hfrac] at this
    exact this
theorem dyadicRound_eq (d : Dyadic) :
    (dyadicRound d : ℤ) = ⌊d.toRat + 1/2⌋ := by
  unfold dyadicRound Dyadic.toRat
  by_cases he : 52 ≤ d.exp
  · rw [if_pos he]
    have hval : (d.sig : ℚ) * (2:ℚ)^(d.exp - 52)
        = ((d.sig * 2 ^ (d.exp - 52).toNat : ℕ) : ℚ) := by
      push_cast
      rw [← zpow_natCast (2:ℚ) (d.exp - 52).toNat, Int.toNat_of_nonneg (by omega)]
    rw [hval]
    have hform : ((d.sig * 2 ^ (d.exp - 52).toNat : ℕ) : ℚ) + 1/2
        = 1/2 + ((d.sig * 2 ^ (d.exp - 52).toNat : ℕ) : ℤ) := by
      push_cast
      ring
    rw [hform, Int.floor_add_int]
    norm_num
  · rw [if_neg he]
    have hk1 : (53 - d.exp).toNat = (52 - d.exp).toNat + 1 := by omega
    rw [hk1]
    have hval : (d.sig : ℚ) * (2:ℚ)^(d.exp - 52)
        = (d.sig : ℚ) / ((2 ^ (52 - d.exp).toNat : ℕ) : ℚ) := by
      push_cast
      rw [← zpow_natCast (2:ℚ) (52 - d.exp).toNat, Int.toNat_of_nonneg (by omega)]
      have h2 : (2:ℚ)^(d.exp - 52) = ((2:ℚ)^((52:ℤ) - d.exp))⁻¹ := by
        rw [← neg_sub (52:ℤ) d.exp, zpow_neg]
      rw [h2]
      rw [div_eq_mul_inv]
    rw [hval]
    have hfr : (d.sig : ℚ) / ((2 ^ (52 - d.exp).toNat : ℕ) : ℚ) + 1/2
        = ((2 * d.sig + 2 ^ (52 - d.exp).toNat : ℕ) : ℚ)
          / ((2 ^ ((52 - d.exp).toNat + 1) : ℕ) : ℚ) := by
      have hp : ((2 ^ (52 - d.exp).toNat : ℕ) : ℚ) ≠ 0 := by positivity
      push_cast
      rw [pow_succ]
      field_simp
      ring
    rw [hfr]
    have h0 : (0:ℚ) ≤ ((2 * d.sig + 2 ^ (52 - d.exp).toNat : ℕ) : ℚ)
        / ((2 ^ ((52 - d.exp).toNat + 1) : ℕ) : ℚ) := by positivity
    rw [← Int.toNat_of_nonneg (Int.floor_nonneg.2 h0), Int.floor_toNat,
      Nat.floor_div_nat, Nat.floor_natCast]
theorem jsProgress_le_100 (m n : ℕ) (hmn : m ≤ n) (hn : 0 < n) (hn53 : n ≤ 2^53) :
    jsProgress m n ≤ 100 := by
  rcases Nat.eq_zero_or_pos m with rfl | hm
  · simp [jsProgress]
  · have hmq : (1:ℚ) ≤ (m:ℚ) := by exact_mod_cast hm
    have hnq : (0:ℚ) < (n:ℚ) := by exact_mod_cast hn
    have hmnq : (m:ℚ) ≤ (n:ℚ) := by exact_mod_cast hmn
    have hn53q : (n:ℚ) ≤ 2^53 := by exact_mod_cast hn53
    have hm1 : ((m:ℕ):ℚ)/((1:ℕ):ℚ) = (m:ℚ) := by norm_num
    have hlow1 : (2:ℚ)^(-80:ℤ) ≤ ((m:ℕ):ℚ)/((1:ℕ):ℚ) := by
      rw [hm1]
      have : (2:ℚ)^(-80:ℤ) ≤ 1 := by norm_num
      linarith
    have hu := fl64_bounds m 1 one_pos hlow1
    rw [hm1] at hu
    obtain ⟨hu1, hu2⟩ := hu
    have huhalf : (1:ℚ)/2 ≤ (fl64 m 1).toRat := by linarith
    have hu0 : (0:ℚ) ≤ (fl64 m 1).toRat := by linarith
    have hA : (1/2:ℚ)/2^53 ≤ (fl64 m 1).toRat / n := by
      gcongr
    have hlow2 : (2:ℚ)^(-80:ℤ) ≤ (fl64 m 1).toRat / n := by
      have : (2:ℚ)^(-80:ℤ) ≤ (1/2:ℚ)/2^53 := by norm_num
      linarith
    obtain ⟨hv1, hv2⟩ := dyadicDivNat_bounds (fl64 m 1) n hn hlow2
    have hun2 : (fl64 m 1).toRat / n ≤ (m:ℚ)/n + ((m:ℚ)/n)/2^52 := by
      have hdivle : (fl64 m 1).toRat / n ≤ ((m:ℚ) + (m:ℚ)/2^52) / n := by gcongr
      have heq : ((m:ℚ) + (m:ℚ)/2^52) / n = (m:ℚ)/n + ((m:ℚ)/n)/2^52 := by
        field_simp
        ring
      linarith [heq ▸ hdivle]
    have hy1 : (m:ℚ)/n ≤ 1 := (div_le_one hnq).2 hmnq
    have hy0 : (0:ℚ) ≤ (m:ℚ)/n := by positivity
    have hA0 : (0:ℚ) ≤ (fl64 m 1).toRat / n := by positivity
    have hV0 : (0:ℚ) ≤ (dyadicDivNat (fl64 m 1) n).toRat :=
      Dyadic.toRat_nonneg _
    have hlow3 : (2:ℚ)^(-80:ℤ) ≤ (dyadicDivNat (fl64 m 1) n).toRat * 100 := by
      have h80 : (2:ℚ)^(-80:ℤ) = 1/2^80 := by norm_num
      rw [h80]
      nlinarith [hA, hv1]
    obtain ⟨hw1, hw2⟩ := dyadicMul100_bounds (dyadicDivNat (fl64 m 1) n) hlow3
    have hWub : (dyadicMul100 (dyadicDivNat (fl64 m 1) n)).toRat + 1/2 < 101 := by
      nlinarith [hw2, hv2, hun2, hy1, hy0, hA0, hV0]
    have hjs : jsProgress m n
        = dyadicRound (dyadicMul100 (dyadicDivNat (fl64 m 1) n)) := by
      unfold jsProgress
      rw [if_neg (Nat.pos_iff_ne_zero.mp hm)]
    have hfloor : (jsProgress m n : ℤ)
        = ⌊(dyadicMul100 (dyadicDivNat (fl64 m 1) n)).toRat + 1/2⌋ := by
      rw [hjs]
      exact dyadicRound_eq _
    have hlt : (jsProgress m n : ℤ) < 101 := by
      rw [hfloor]
      rw [Int.floor_lt]
      exact_mod_cast hWub
    omega
theorem approxChain (y q v w : ℚ) (hy0 : 0 ≤ y) (hy1 : y ≤ 1)
    (hq1 : y - y/2^52 ≤ q) (hq2 : q ≤ y + y/2^52)
    (hv1 : q - q/2^52 ≤ v) (hv2 : v ≤ q + q/2^52)
    (hw1 : v*100 - (v*100)/2^52 ≤ w) (hw2 : w ≤ v*100 + (v*100)/2^52) :
    100*y - 1 ≤ w ∧ w ≤ 100*y + 1 := by
  have hq0 : (0:ℚ) ≤ q := by linarith
  have hv0 : (0:ℚ) ≤ v := by linarith
  have hq3 : q ≤ 1 + 1/2^52 := by linarith
  have hv3 : v ≤ (1 + 1/2^52) + (1 + 1/2^52)/2^52 := by linarith
  constructor <;> linarith

theorem jsProgress_near_round (m n : ℕ) (hmn : m ≤ n) (hn : 0 < n)
    (hn53 : n ≤ 2^53) :
    (jsProgress m n : ℤ) ≤ round ((100 * (m:ℚ)) / n) + 1
    ∧ round ((100 * (m:ℚ)) / n) ≤ (jsProgress m n : ℤ) + 1 := by
  rcases Nat.eq_zero_or_pos m with rfl | hm
  · have hz : ((100 * ((0:ℕ):ℚ)) / (n:ℚ)) = 0 := by norm_num
    rw [hz]
    simp [jsProgress]
  · have hmq : (1:ℚ) ≤ (m:ℚ) := by exact_mod_cast hm
    have hnq : (0:ℚ) < (n:ℚ) := by exact_mod_cast hn
    have hmnq : (m:ℚ) ≤ (n:ℚ) := by exact_mod_cast hmn
    have hn53q : (n:ℚ) ≤ 2^53 := by exact_mod_cast hn53
    have hm1 : ((m:ℕ):ℚ)/((1:ℕ):ℚ) = (m:ℚ) := by norm_num
    have hlow1 : (2:ℚ)^(-80:ℤ) ≤ ((m:ℕ):ℚ)/((1:ℕ):ℚ) := by
      rw [hm1]
      have : (2:ℚ)^(-80:ℤ) ≤ 1 := by norm_num
      linarith
    have hu := fl64_bounds m 1 one_pos hlow1
    rw [hm1] at hu
    obtain ⟨hu1, hu2⟩ := hu
    have huhalf : (1:ℚ)/2 ≤ (fl64 m 1).toRat := by linarith
    have hu0 : (0:ℚ) ≤ (fl64 m 1).toRat := by linarith
    have hA : (1/2:ℚ)/2^53 ≤ (fl64 m 1).toRat / n := by
      gcongr
    have hlow2 : (2:ℚ)^(-80:ℤ) ≤ (fl64 m 1).toRat / n := by
      have : (2:ℚ)^(-80:ℤ) ≤ (1/2:ℚ)/2^53 := by norm_num
      linarith
    obtain ⟨hv1, hv2⟩ := dyadicDivNat_bounds (fl64 m 1) n hn hlow2
    have hun2 : (fl64 m 1).toRat / n ≤ (m:ℚ)/n + ((m:ℚ)/n)/2^52 := by
      have hdivle : (fl64 m 1).toRat / n ≤ ((m:ℚ) + (m:ℚ)/2^52) / n := by gcongr
      have heq : ((m:ℚ) + (m:ℚ)/2^52) / n = (m:ℚ)/n + ((m:ℚ)/n)/2^52 := by
        field_simp
        ring
      linarith [heq ▸ hdivle]
    have hun1 : (m:ℚ)/n - ((m:ℚ)/n)/2^52 ≤ (fl64 m 1).toRat / n := by
      have hdivle : ((m:ℚ) - (m:ℚ)/2^52) / n ≤ (fl64 m 1).toRat / n := by gcongr
      have heq : ((m:ℚ) - (m:ℚ)/2^52) / n = (m:ℚ)/n - ((m:ℚ)/n)/2^52 := by
        field_simp
        ring
      linarith [heq ▸ hdivle]
    have hy1 : (m:ℚ)/n ≤ 1 := (div_le_one hnq).2 hmnq
    have hy0 : (0:ℚ) ≤ (m:ℚ)/n := by positivity
    have hA0 : (0:ℚ) ≤ (fl64 m 1).toRat / n := by positivity
    have hV0 : (0:ℚ) ≤ (dyadicDivNat (fl64 m 1) n).toRat :=
      Dyadic.toRat_nonneg _
    have hlow3 : (2:ℚ)^(-80:ℤ) ≤ (dyadicDivNat (fl64 m 1) n).toRat * 100 := by
      have h80 : (2:ℚ)^(-80:ℤ) = 1/2^80 := by norm_num
      rw [h80]
      nlinarith [hA, hv1]
    obtain ⟨hw1, hw2⟩ := dyadicMul100_bounds (dyadicDivNat (fl64 m 1) n) hlow3
    have hchain := approxChain ((m:ℚ)/n) ((fl64 m 1).toRat/n)
      (dyadicDivNat (fl64 m 1) n).toRat
      (dyadicMul100 (dyadicDivNat (fl64 m 1) n)).toRat
      hy0 hy1 hun1 hun2 hv1 hv2 hw1 hw2
    have hWub : (dyadicMul100 (dyadicDivNat (fl64 m 1) n)).toRat
        ≤ (100 * (m:ℚ)) / n + 1 := by
      have hx : (100 * (m:ℚ)) / n = 100 * ((m:ℚ)/n) := by ring
      rw [hx]
      exact hchain.2
    have hWlb : (100 * (m:ℚ)) / n - 1
        ≤ (dyadicMul100 (dyadicDivNat (fl64 m 1) n)).toRat := by
      have hx : (100 * (m:ℚ)) / n = 100 * ((m:ℚ)/n) := by ring
      rw [hx]
      exact hchain.1
    have hjs : jsProgress m n
        = dyadicRound (dyadicMul100 (dyadicDivNat (fl64 m 1) n)) := by
      unfold jsProgress
      rw [if_neg (Nat.pos_iff_ne_zero.mp hm)]
    have hfloor : (jsProgress m n : ℤ)
        = ⌊(dyadicMul100 (dyadicDivNat (fl64 m 1) n)).toRat + 1/2⌋ := by
      rw [hjs]
      exact dyadicRound_eq _
    rw [round_eq, hfloor]
    constructor
    · have h1 : (dyadicMul100 (dyadicDivNat (fl64 m 1) n)).toRat + 1/2
          ≤ ((100 * (m:ℚ)) / n + 1/2) + 1 := by linarith
      calc ⌊(dyadicMul100 (dyadicDivNat (fl64 m 1) n)).toRat + 1/2⌋
          ≤ ⌊((100 * (m:ℚ)) / n + 1/2) + 1⌋ := Int.floor_le_floor h1
        _ = ⌊(100 * (m:ℚ)) / n + 1/2⌋ + 1 := Int.floor_add_one _
    · have h1 : (100 * (m:ℚ)) / n + 1/2
          ≤ ((dyadicMul100 (dyadicDivNat (fl64 m 1) n)).toRat + 1/2) + 1 := by
        linarith
      calc ⌊(100 * (m:ℚ)) / n + 1/2⌋
          ≤ ⌊((dyadicMul100 (dyadicDivNat (fl64 m 1) n)).toRat + 1/2) + 1⌋ :=
            Int.floor_le_floor h1
        _ = ⌊(dyadicMul100 (dyadicDivNat (fl64 m 1) n)).toRat + 1/2⌋ + 1 :=
            Int.floor_add_one _

namespace TicketWorker

theorem completeItem_counters (o : ItemOutcome) (now : String) (r : JobStatus) :
    (completeItem o now r).processed + (completeItem o now r).failed
      = r.processed + r.failed + 1
    ∧ (completeItem o now r).total = r.total := by
  cases o <;>
    simp [completeItem, checkCompleteSuccess, checkCompleteFailure,
      incrementProcessed, incrementFailed, setTerminal] <;>
    split <;> simp <;> omega

theorem runItems_counters (steps : List (ItemOutcome × String)) (r : JobStatus) :
    (runItems steps r).processed + (runItems steps r).failed
      = r.processed + r.failed + steps.length
    ∧ (runItems steps r).total = r.total := by
  induction steps generalizing r with
  | nil => simp [runItems]
  | cons s steps ih =>
    obtain ⟨hc1, hc2⟩ := completeItem_counters s.1 s.2 r
    obtain ⟨hr1, hr2⟩ := ih (completeItem s.1 s.2 r)
    have hfold : runItems (s :: steps) r = runItems steps (completeItem s.1 s.2 r) := rfl
    rw [hfold, List.length_cons]
    exact ⟨by omega, by omega⟩

theorem processRecord_ok_of_not_throws (rec : WorkRecord) (now : String)
    (r : JobStatus) (h : throwsOn rec = false) :
    ∃ r1, processRecord rec now r = Except.ok r1 := by
  unfold processRecord
  unfold throwsOn at h
  rcases hp : rec.parses <;> rcases hu : rec.upstreamOk && rec.processedUpdateOk <;>
    rcases hf : rec.failedUpdateOk <;> simp [hp, hu, hf] at h ⊢

end TicketWorker



namespace TicketWorker

theorem batch_all_processed (recs : List WorkRecord) (now : String) (r : JobStatus)
    (h : ∀ rec ∈ recs, throwsOn rec = false) :
    (handler recs now r).2.1 = recs.length ∧ (handler recs now r).2.2 = false := by
  induction recs generalizing r with
  | nil => simp [handler]
  | cons rec rest ih =>
    obtain ⟨r1, hr1⟩ :=
      processRecord_ok_of_not_throws rec now r (h rec (List.mem_cons_self rec rest))
    obtain ⟨hc, ha⟩ := ih r1 fun x hx => h x (List.mem_cons_of_mem rec hx)
    simp [handler, hr1, hc, ha]

theorem terminal_check_success_status (r : JobStatus) (now : String)
    (h : r.total ≤ r.processed + r.failed) :
    (checkCompleteSuccess r now).status
      = (if r.failed = 0 then "completed" else "failed") := by
  have hge : r.processed + r.failed ≥ r.total := h
  unfold checkCompleteSuccess setTerminal
  rw [if_pos hge]
  rcases Nat.eq_zero_or_pos r.failed with hf | hf
  · simp [hf]
  · rw [if_pos hf, if_neg (by omega)]

theorem terminal_check_success_counters (r : JobStatus) (now : String) :
    (checkCompleteSuccess r now).processed = r.processed
    ∧ (checkCompleteSuccess r now).failed = r.failed
    ∧ (checkCompleteSuccess r now).total = r.total := by
  unfold checkCompleteSuccess setTerminal
  split <;> simp

end TicketWorker


namespace TicketWorker

theorem terminal_check_failure_status (r : JobStatus) (now : String)
    (h : r.total ≤ r.processed + r.failed) :
    (checkCompleteFailure r now).status = "failed" := by
  have hge : r.processed + r.failed ≥ r.total := h
  unfold checkCompleteFailure setTerminal
  rw [if_pos hge]

theorem terminal_check_failure_counters (r : JobStatus) (now : String) :
    (checkCompleteFailure r now).processed = r.processed
    ∧ (checkCompleteFailure r now).failed = r.failed
    ∧ (checkCompleteFailure r now).total = r.total := by
  unfold checkCompleteFailure setTerminal
  split <;> simp

theorem terminal_transition_core (o : ItemOutcome) (now : String) (r : JobStatus)
    (h : (incStep o now r).total
      ≤ (incStep o now r).processed + (incStep o now r).failed) :
    (completeItem o now r).status
      = (if (incStep o now r).failed = 0 then "completed" else "failed")
    ∧ ∀ t2 : String,
        (checkCompleteSuccess (completeItem o now r) t2).status
          = (completeItem o now r).status := by
  cases o with
  | success =>
    simp only [incStep, completeItem] at h ⊢
    have h1 : (incrementProcessed r now).total
        ≤ (incrementProcessed r now).processed + (incrementProcessed r now).failed := h
    constructor
    · exact terminal_check_success_status (incrementProcessed r now) now h1
    · intro t2
      obtain ⟨hp, hf, ht⟩ := terminal_check_success_counters (incrementProcessed r now) now
      have h2 : (checkCompleteSuccess (incrementProcessed r now) now).total
          ≤ (checkCompleteSuccess (incrementProcessed r now) now).processed
            + (checkCompleteSuccess (incrementProcessed r now) now).failed := by
        rw [hp, hf, ht]; exact h1
      show (checkCompleteSuccess (checkCompleteSuccess (incrementProcessed r now) now) t2).status
        = (checkCompleteSuccess (incrementProcessed r now) now).status
      rw [terminal_check_success_status _ t2 h2,
        terminal_check_success_status (incrementProcessed r now) now h1, hf]
  | failure e =>
    simp only [incStep, completeItem] at h ⊢
    have h1 : (incrementFailed r e now).total
        ≤ (incrementFailed r e now).processed + (incrementFailed r e now).failed := h
    have hfz : (incrementFailed r e now).failed = r.failed + 1 := rfl
    constructor
    · show (checkCompleteFailure (incrementFailed r e now) now).status = _
      rw [terminal_check_failure_status (incrementFailed r e now) now h1,
        if_neg (by simp [hfz])]
    · intro t2
      obtain ⟨hp, hf, ht⟩ := terminal_check_failure_counters (incrementFailed r e now) now
      have h2 : (checkCompleteFailure (incrementFailed r e now) now).total
          ≤ (checkCompleteFailure (incrementFailed r e now) now).processed
            + (checkCompleteFailure (incrementFailed r e now) now).failed := by
        rw [hp, hf, ht]; exact h1
      show (checkCompleteSuccess (checkCompleteFailure (incrementFailed r e now) now) t2).status
        = (checkCompleteFailure (incrementFailed r e now) now).status
      rw [terminal_check_success_status _ t2 h2,
        terminal_check_failure_status (incrementFailed r e now) now h1]
      simp [hf, hfz]

end TicketWorker


namespace CreateJobLambda

theorem messagesFor_length (jobId username token jiraInstance : String)
    (dates : List String) (tickets : List Ticket) :
    (messagesFor jobId username token jiraInstance dates tickets).length
      = dates.length * tickets.length := by
  induction dates with
  | nil => simp [messagesFor]
  | cons d ds ih =>
    have hsplit : messagesFor jobId username token jiraInstance (d :: ds) tickets
        = (tickets.map fun ticket =>
            ({ jobId := jobId, username := username, date := d, ticket := ticket,
               token := token, jiraInstance := jiraInstance } : TicketMessage))
          ++ messagesFor jobId username token jiraInstance ds tickets := by
      simp [messagesFor]
    rw [hsplit, List.length_append, List.length_map, ih, List.length_cons,
      Nat.succ_mul]
    omega

theorem handler_valid (username rawDates jiraInstance authHeader jobId createdAt : String)
    (tickets : List Ticket)
    (hah : authHeader.isEmpty = false)
    (htok : (bearerToken authHeader).isEmpty = false)
    (hu : username.isEmpty = false)
    (hd : rawDates.isEmpty = false)
    (hj : jiraInstance = "jira3" ∨ jiraInstance = "jira9" ∨ jiraInstance = "jiradc")
    (ht : tickets.length ≠ 0)
    (hvt : tickets.filter invalidTicket = []) :
    handler
      { body := some (RequestBody.parsed
          { username := some username, dates := some rawDates,
            tickets := JsonTickets.array tickets,
            jiraInstance := some jiraInstance }),
        authHeader := some authHeader } jobId createdAt
    = (successResponse "Job created successfully. Processing started."
        (some { jobId := jobId,
                total := (parseDates rawDates).length * tickets.length }),
       AdmissionEffect.putJob
         { jobId := jobId,
           total := (parseDates rawDates).length * tickets.length,
           processed := 0, failed := 0, status := "in-progress",
           createdAt := createdAt, updatedAt := none, errors := [] } ::
         (messagesFor jobId username (bearerToken authHeader) jiraInstance
            (parseDates rawDates) tickets).map AdmissionEffect.sendMessage) := by
  have h3 : ("jira3" : String).isEmpty = false := by rfl
  have h9 : ("jira9" : String).isEmpty = false := by rfl
  have hdc : ("jiradc" : String).isEmpty = false := by rfl
  rcases hj with rfl | rfl | rfl <;>
    simp [handler, falsyString, hah, htok, hu, hd, ht, hvt, h3, h9, hdc]

end CreateJobLambda


namespace CreateJobLambda

theorem handler_cases (event : CreateJobEvent) (jobId createdAt : String) :
    ((handler event jobId createdAt).1.statusCode = 400
      ∧ (handler event jobId createdAt).2 = [] ∧ failsValidation event = true)
    ∨ (handler event jobId createdAt = (serverErrorResponse, [])
      ∧ failsValidation event = false)
    ∨ (∃ (total : Nat) (record : JobStatus) (messages : List TicketMessage),
        handler event jobId createdAt
          = (successResponse "Job created successfully. Processing started."
              (some { jobId := jobId, total := total }),
             AdmissionEffect.putJob record
               :: messages.map AdmissionEffect.sendMessage)
        ∧ failsValidation event = false) := by
  rcases event with ⟨body, auth⟩
  rcases body with _ | body
  · exact Or.inl (by
      simp [handler, failsValidation, badRequestResponse, createResponse])
  · by_cases hauth : falsyString auth = true
    · exact Or.inl (by
        simp [handler, failsValidation, hauth, badRequestResponse, createResponse])
    · rw [Bool.not_eq_true] at hauth
      by_cases htok : (bearerToken (auth.getD "")).isEmpty = true
      · exact Or.inl (by
          simp [handler, failsValidation, hauth, htok, badRequestResponse,
            createResponse])
      · rw [Bool.not_eq_true] at htok
        rcases body with _ | req
        · exact Or.inr (Or.inl (by
            simp [handler, failsValidation, hauth, htok]))
        · rcases req with ⟨nameF, datesF, ticketsF, jiraF⟩
          by_cases hu : falsyString nameF = true
          · exact Or.inl (by
              simp [handler, failsValidation, hauth, htok, hu,
                badRequestResponse, createResponse])
          · rw [Bool.not_eq_true] at hu
            by_cases hd : falsyString datesF = true
            · exact Or.inl (by
                simp [handler, failsValidation, hauth, htok, hu, hd,
                  badRequestResponse, createResponse])
            · rw [Bool.not_eq_true] at hd
              by_cases hji : falsyString jiraF = true
              · exact Or.inl (by
                  simp [handler, failsValidation, hauth, htok, hu, hd, hji,
                    badRequestResponse, createResponse])
              · rw [Bool.not_eq_true] at hji
                by_cases hj : jiraF.getD "" ≠ "jira3" ∧ jiraF.getD "" ≠ "jira9"
                    ∧ jiraF.getD "" ≠ "jiradc"
                · exact Or.inl (by
                    simp [handler, failsValidation, hauth, htok, hu, hd, hji, hj,
                      badRequestResponse, createResponse])
                · rcases ticketsF with _ | _ | tickets
                  · exact Or.inl (by
                      simp [handler, failsValidation, hauth, htok, hu, hd, hji, hj,
                        badRequestResponse, createResponse])
                  · exact Or.inl (by
                      simp [handler, failsValidation, hauth, htok, hu, hd, hji, hj,
                        badRequestResponse, createResponse])
                  · by_cases hlen : tickets.length = 0
                    · exact Or.inl (by
                        simp [handler, failsValidation, hauth, htok, hu, hd, hji,
                          hj, hlen, badRequestResponse, createResponse])
                    · by_cases hbad : (tickets.filter invalidTicket).length > 0
                      · exact Or.inl (by
                          simp [handler, failsValidation, hauth, htok, hu, hd, hji,
                            hj, hlen, hbad, badRequestResponse, createResponse])
                      · refine Or.inr (Or.inr
                          ⟨(parseDates (datesF.getD "")).length * tickets.length,
                           { jobId := jobId,
                             total := (parseDates (datesF.getD "")).length
                               * tickets.length,
                             processed := 0, failed := 0, status := "in-progress",
                             createdAt := createdAt, updatedAt := none,
                             errors := [] },
                           messagesFor jobId (nameF.getD "")
                             (bearerToken (auth.getD "")) (jiraF.getD "")
                             (parseDates (datesF.getD "")) tickets, ?_, ?_⟩)
                        · simp [handler, hauth, htok, hu, hd, hji, hj, hlen, hbad]
                        · simp [failsValidation, hauth, htok, hu, hd, hji, hj,
                            hlen, hbad]

end CreateJobLambda


namespace CreateJobLambda

theorem ticketsMissing_message (event : CreateJobEvent) (jobId createdAt : String)
    (h : ticketsMissing event = true) :
    handler event jobId createdAt
      = (badRequestResponse "Missing or invalid tickets: must provide a tickets array",
         []) := by
  rcases event with ⟨body, auth⟩
  rcases body with _ | body
  · simp [ticketsMissing] at h
  · rcases body with _ | req
    · simp [ticketsMissing] at h
    · rcases req with ⟨nameF, datesF, ticketsF, jiraF⟩
      rcases ticketsF with _ | _ | tickets
      · simp [ticketsMissing] at h
        obtain ⟨⟨hauth, htok⟩, ⟨⟨hu, hd⟩, hji⟩, hj⟩ := h
        rcases hj with hj | hj | hj <;>
          simp [handler, hauth, htok, hu, hd, hji, hj]
      · simp [ticketsMissing] at h
        obtain ⟨⟨hauth, htok⟩, ⟨⟨hu, hd⟩, hji⟩, hj⟩ := h
        rcases hj with hj | hj | hj <;>
          simp [handler, hauth, htok, hu, hd, hji, hj]
      · simp [ticketsMissing] at h

end CreateJobLambda





namespace CreateJobLambda

/-- C1: every valid bulk request with `d` parsed date tokens and `t`
tickets creates, before the handler returns, a job record with
`total = d*t`, `processed = 0`, `failed = 0`, `status = "in-progress"`,
and exactly `d*t` work-item messages, one per date×ticket pair, each
carrying the token, username, jiraInstance, the specific ticket and the
specific date. -/
theorem claim1_bulk_expansion
    (username rawDates jiraInstance authHeader jobId createdAt : String)
    (tickets : List Ticket)
    (hah : authHeader.isEmpty = false)
    (htok : (bearerToken authHeader).isEmpty = false)
    (hu : username.isEmpty = false)
    (hd : rawDates.isEmpty = false)
    (hj : jiraInstance = "jira3" ∨ jiraInstance = "jira9" ∨ jiraInstance = "jiradc")
    (ht : tickets.length ≠ 0)
    (hvt : tickets.filter invalidTicket = []) :
    handler
      { body := some (RequestBody.parsed
          { username := some username, dates := some rawDates,
            tickets := JsonTickets.array tickets,
            jiraInstance := some jiraInstance }),
        authHeader := some authHeader } jobId createdAt
      = (successResponse "Job created successfully. Processing started."
          (some { jobId := jobId,
                  total := (parseDates rawDates).length * tickets.length }),
         AdmissionEffect.putJob
           { jobId := jobId,
             total := (parseDates rawDates).length * tickets.length,
             processed := 0, failed := 0, status := "in-progress",
             createdAt := createdAt, updatedAt := none, errors := [] } ::
           (messagesFor jobId username (bearerToken authHeader) jiraInstance
              (parseDates rawDates) tickets).map AdmissionEffect.sendMessage)
    ∧ ((messagesFor jobId username (bearerToken authHeader) jiraInstance
          (parseDates rawDates) tickets).map AdmissionEffect.sendMessage).length
        = (parseDates rawDates).length * tickets.length :=
  ⟨handler_valid username rawDates jiraInstance authHeader jobId createdAt
      tickets hah htok hu hd hj ht hvt,
   by rw [List.length_map, messagesFor_length]⟩

/-- C1 witness: the valid sample request (two dates, one ticket) enqueues
exactly 2 × 1 messages. -/
theorem claim1_bulk_expansion_witness :
    ((messagesFor "job-1" "alice" (bearerToken "Bearer tok123") "jiradc"
        (parseDates "1/Jan/26,2/Jan/26") [sampleTicket]).map
        AdmissionEffect.sendMessage).length
      = (parseDates "1/Jan/26,2/Jan/26").length * [sampleTicket].length :=
  (claim1_bulk_expansion "alice" "1/Jan/26,2/Jan/26" "jiradc" "Bearer tok123"
    "job-1" "t0" [sampleTicket] (by decide) (by decide) (by decide) (by decide)
    (Or.inr (Or.inr rfl)) (by decide) (by decide)).2

/-- C4: every admission request failing one of the validation checks is
answered with a 400 response and produces no store write and no enqueued
message; when the failing check is the tickets check, the message is
exactly the documented one. -/
theorem claim4_validation_rejects (event : CreateJobEvent)
    (jobId createdAt : String) (h : failsValidation event = true) :
    (handler event jobId createdAt).1.statusCode = 400
    ∧ (handler event jobId createdAt).2 = []
    ∧ (ticketsMissing event = true →
        (handler event jobId createdAt).1
          = badRequestResponse
              "Missing or invalid tickets: must provide a tickets array") := by
  have hmsg : ticketsMissing event = true →
      (handler event jobId createdAt).1
        = badRequestResponse
            "Missing or invalid tickets: must provide a tickets array" := by
    intro hm
    rw [ticketsMissing_message event jobId createdAt hm]
  rcases handler_cases event jobId createdAt with
    ⟨h4, he, _⟩ | ⟨heq, hfv⟩ | ⟨t, r, m, heq, hfv⟩
  · exact ⟨h4, he, hmsg⟩
  · rw [hfv] at h; cases h
  · rw [hfv] at h; cases h

/-- C4 witness: the request whose tickets field is missing is rejected
with status 400, the documented message, and an empty effect trace. -/
theorem claim4_validation_rejects_witness :
    (handler absentTicketsEvent "job-1" "t0").1.statusCode = 400
    ∧ (handler absentTicketsEvent "job-1" "t0").2 = []
    ∧ (ticketsMissing absentTicketsEvent = true →
        (handler absentTicketsEvent "job-1" "t0").1
          = badRequestResponse
              "Missing or invalid tickets: must provide a tickets array") :=
  claim4_validation_rejects absentTicketsEvent "job-1" "t0" (by decide)

end CreateJobLambda


namespace TicketWorker

/-- C2 (amended): over any sequence of completion steps (any interleaving
of success and failure, including duplicate deliveries), `processed +
failed` is monotonically non-decreasing; and starting from a fresh record,
`processed + failed` stays within `total` provided each of the `total`
work items is completed at most once (at most `total` steps).  Duplicate
deliveries beyond that can push the sum past `total`, because the
increments are unconditional. -/
theorem claim2_counters_monotone (steps : List (ItemOutcome × String))
    (r : JobStatus) (hp : r.processed = 0) (hf : r.failed = 0)
    (hlen : steps.length ≤ r.total) :
    (∀ (steps2 : List (ItemOutcome × String)) (r2 : JobStatus),
        r2.processed + r2.failed
          ≤ (runItems steps2 r2).processed + (runItems steps2 r2).failed)
    ∧ (runItems steps r).processed + (runItems steps r).failed
        ≤ (runItems steps r).total := by
  constructor
  · intro steps2 r2
    obtain ⟨h1, _⟩ := runItems_counters steps2 r2
    omega
  · obtain ⟨h1, h2⟩ := runItems_counters steps r
    omega

/-- C2 witness: one completion step on a fresh one-item job keeps
`processed + failed` within `total`. -/
theorem claim2_counters_monotone_witness :
    (runItems [(ItemOutcome.success, "t1")] dupJob).processed
      + (runItems [(ItemOutcome.success, "t1")] dupJob).failed
      ≤ (runItems [(ItemOutcome.success, "t1")] dupJob).total :=
  (claim2_counters_monotone [(ItemOutcome.success, "t1")] dupJob rfl rfl
    (by decide)).2

/-- C2 counterexample: delivering the single work item of a one-item job
twice (at-least-once redelivery) drives `processed + failed` to 2 while
`total = 1`, so the claimed invariant `processed + failed ≤ total` fails
on a reachable state. -/
theorem claim2_duplicate_counterexample :
    ¬((runItems [(ItemOutcome.success, "t1"), (ItemOutcome.success, "t2")]
          dupJob).processed
      + (runItems [(ItemOutcome.success, "t1"), (ItemOutcome.success, "t2")]
          dupJob).failed
      ≤ (runItems [(ItemOutcome.success, "t1"), (ItemOutcome.success, "t2")]
          dupJob).total) := by decide

/-- C3: when a completion step on either outcome observes
`processed + failed >= total` on its re-read, the status it writes is
`"completed"` if `failed = 0` and `"failed"` otherwise; and re-running the
terminal-status update on the resulting record with the same counts leaves
the status unchanged (idempotent, no flapping). -/
theorem claim3_terminal_transition (o : ItemOutcome) (now : String)
    (r : JobStatus)
    (h : (incStep o now r).total
      ≤ (incStep o now r).processed + (incStep o now r).failed) :
    (completeItem o now r).status
      = (if (incStep o now r).failed = 0 then "completed" else "failed")
    ∧ ∀ t2 : String,
        (checkCompleteSuccess (completeItem o now r) t2).status
          = (completeItem o now r).status :=
  terminal_transition_core o now r h

/-- C3 witness: the successful completion of the only item of a one-item
job marks it `"completed"`. -/
theorem claim3_terminal_transition_witness :
    (completeItem ItemOutcome.success "t1" dupJob).status
      = (if (incStep ItemOutcome.success "t1" dupJob).failed = 0 then
          "completed" else "failed") :=
  (claim3_terminal_transition ItemOutcome.success "t1" dupJob (by decide)).1

/-- C6 (amended): within one delivered batch the records are processed
sequentially and independently as long as no record makes `processRecord`
raise: an ordinary item failure (upstream call fails, failure path
records it) never blocks or aborts the siblings.  A record whose body does
not parse, or whose failure-path store update itself raises, aborts the
rest of the batch. -/
theorem claim6_batch_independence (recs : List WorkRecord) (now : String)
    (r : JobStatus) (h : ∀ rec ∈ recs, throwsOn rec = false) :
    (handler recs now r).2.1 = recs.length
    ∧ (handler recs now r).2.2 = false :=
  batch_all_processed recs now r h

/-- C6 witness: a batch whose first record fails upstream (with a working
failure path) still processes both records. -/
theorem claim6_batch_independence_witness :
    (handler [failingUpstreamRecord, okRecord] "t1" dupJob).2.1
      = [failingUpstreamRecord, okRecord].length
    ∧ (handler [failingUpstreamRecord, okRecord] "t1" dupJob).2.2 = false :=
  claim6_batch_independence [failingUpstreamRecord, okRecord] "t1" dupJob
    (by decide)

/-- C6 counterexample: when the first record's upstream call fails and its
failure-path store update also raises, the raise propagates out of
`processRecord` and the second record of the batch is never processed —
the sibling is blocked, contradicting the claim. -/
theorem claim6_batch_abort_counterexample :
    (handler [throwingRecord, okRecord] "t1" dupJob).2.1 = 0
    ∧ (handler [throwingRecord, okRecord] "t1" dupJob).2.2 = true := by
  decide

end TicketWorker


namespace JobStatusLambda

/-- C10: a GET /jobs/status request without the `jobId` query parameter is
answered 400 with the documented message and no store read — a distinct
outcome from the 404 returned when a supplied `jobId` has no record. -/
theorem claim10_missing_query_param (store : String → Option JobStatus)
    (unknownId : String) (hid : unknownId.isEmpty = false)
    (hstore : store unknownId = none) :
    handler { jobId := none } store
      = (badRequestResponse "Missing required query parameter: jobId", [])
    ∧ handler { jobId := some unknownId } store
      = (notFoundResponse ("Job " ++ unknownId ++ " not found"),
         [StoreAccess.getJob unknownId]) := by
  constructor
  · rfl
  · simp [handler, hid, hstore]

/-- C10 witness: the empty store, queried without and with a `jobId`. -/
theorem claim10_missing_query_param_witness :
    handler { jobId := none } (fun _ => (none : Option JobStatus))
      = (badRequestResponse "Missing required query parameter: jobId", [])
    ∧ handler { jobId := some "job-x" } (fun _ => (none : Option JobStatus))
      = (notFoundResponse ("Job " ++ "job-x" ++ " not found"),
         [StoreAccess.getJob "job-x"]) :=
  claim10_missing_query_param (fun _ => none) "job-x" (by decide) rfl

end JobStatusLambda


namespace CreateJobLambda

/-- C7 (amended): every POST /jobs request is answered with status 200,
400 or 500 — 200 on success (carrying the job id and total in the data
payload along with the message), 400 on a validation failure, and 500
when the handler-level catch fires (an unparseable JSON body).  The
success status is 200, not 201: `successResponse` is built on
`createResponse(200, ...)`. -/
theorem claim7_status_codes (event : CreateJobEvent)
    (jobId createdAt : String) :
    ((handler event jobId createdAt).1.statusCode = 200
      ∨ (handler event jobId createdAt).1.statusCode = 400
      ∨ (handler event jobId createdAt).1.statusCode = 500)
    ∧ ((handler event jobId createdAt).1.statusCode = 200 →
        ∃ total : Nat, (handler event jobId createdAt).1
          = successResponse "Job created successfully. Processing started."
              (some { jobId := jobId, total := total })) := by
  rcases handler_cases event jobId createdAt with
    ⟨h4, _, _⟩ | ⟨heq, _⟩ | ⟨t, r, m, heq, _⟩
  · refine ⟨Or.inr (Or.inl h4), fun h200 => ?_⟩
    rw [h4] at h200
    exact absurd h200 (by decide)
  · have h500 : (handler event jobId createdAt).1.statusCode = 500 := by
      rw [heq]; rfl
    refine ⟨Or.inr (Or.inr h500), fun h200 => ?_⟩
    rw [h500] at h200
    exact absurd h200 (by decide)
  · have h200 : (handler event jobId createdAt).1.statusCode = 200 := by
      rw [heq]; rfl
    exact ⟨Or.inl h200, fun _ => ⟨t, by rw [heq]⟩⟩

/-- C7 counterexample: the fully valid sample request is answered with
HTTP 200, which is neither the claimed 201 nor a 400, so the claimed
"201 or 400, nothing else" dichotomy fails on the code. -/
theorem claim7_status_code_counterexample :
    (handler sampleEvent "job-1" "t0").1.statusCode = 200
    ∧ ¬((handler sampleEvent "job-1" "t0").1.statusCode = 201
        ∨ (handler sampleEvent "job-1" "t0").1.statusCode = 400) := by
  decide

/-- C8: in the admission handler's effect trace, any enqueued work-item
message is preceded by the job record put: the trace always starts with
the `PutCommand` whenever it contains a `SendMessageCommand`, so no
reachable state holds an enqueued message for a job with no record. -/
theorem claim8_record_before_enqueue (event : CreateJobEvent)
    (jobId createdAt : String) (m : TicketMessage)
    (h : AdmissionEffect.sendMessage m ∈ (handler event jobId createdAt).2) :
    ∃ record : JobStatus,
      ((handler event jobId createdAt).2).head?
        = some (AdmissionEffect.putJob record) := by
  rcases handler_cases event jobId createdAt with
    ⟨_, he, _⟩ | ⟨heq, _⟩ | ⟨t, r, msgs, heq, _⟩
  · rw [he] at h
    simp at h
  · rw [heq] at h
    simp at h
  · exact ⟨r, by rw [heq]; rfl⟩

/-- C8 witness: the sample request enqueues the sample message, and the
effect trace indeed starts with the job record put. -/
theorem claim8_record_before_enqueue_witness :
    ∃ record : JobStatus,
      ((handler sampleEvent "job-1" "t0").2).head?
        = some (AdmissionEffect.putJob record) :=
  claim8_record_before_enqueue sampleEvent "job-1" "t0" sampleMessage
    (by decide)

/-- C9: `parseDates` splits on every comma and trims each token without
discarding empty tokens, so the token count is always the comma count
plus one; the dates string `","` parses to two empty tokens, and a valid
request with it is accepted with `total = 2 × tickets` and every
enqueued message carrying the empty-string date. -/
theorem claim9_parse_dates_empty_tokens :
    (∀ s : String, (parseDates s).length = countCommas s + 1)
    ∧ parseDates "," = ["", ""]
    ∧ ∀ (username authHeader jobId createdAt jiraInstance : String)
        (tickets : List Ticket),
        authHeader.isEmpty = false →
        (bearerToken authHeader).isEmpty = false →
        username.isEmpty = false →
        (jiraInstance = "jira3" ∨ jiraInstance = "jira9"
          ∨ jiraInstance = "jiradc") →
        tickets.length ≠ 0 → tickets.filter invalidTicket = [] →
        (handler
            { body := some (RequestBody.parsed
                { username := some username, dates := some ",",
                  tickets := JsonTickets.array tickets,
                  jiraInstance := some jiraInstance }),
              authHeader := some authHeader } jobId createdAt).2
          = AdmissionEffect.putJob
              { jobId := jobId, total := 2 * tickets.length, processed := 0,
                failed := 0, status := "in-progress", createdAt := createdAt,
                updatedAt := none, errors := [] } ::
            (messagesFor jobId username (bearerToken authHeader) jiraInstance
               ["", ""] tickets).map AdmissionEffect.sendMessage
        ∧ ∀ m ∈ messagesFor jobId username (bearerToken authHeader)
            jiraInstance ["", ""] tickets, m.date = "" := by
  have hcomma : parseDates "," = ["", ""] := by decide
  refine ⟨parseDates_length, hcomma, ?_⟩
  intro username authHeader jobId createdAt jiraInstance tickets hah htok hu
    hj ht hvt
  have hv := handler_valid username "," jiraInstance authHeader jobId
    createdAt tickets hah htok hu (by decide) hj ht hvt
  rw [hv]
  constructor
  · simp [hcomma]
  · intro m hm
    simp only [messagesFor, List.mem_flatMap, List.mem_map] at hm
    obtain ⟨d, hd2, t, ht2, rfl⟩ := hm
    simp only [List.mem_cons, List.mem_singleton, List.not_mem_nil] at hd2
    rcases hd2 with rfl | rfl | h0
    · rfl
    · rfl
    · cases h0

/-- C9 witness: the valid comma-dates request with one ticket yields the
job record with `total = 2` followed by the two empty-date messages. -/
theorem claim9_parse_dates_empty_tokens_witness :
    (handler commaEvent "job-2" "t0").2
      = AdmissionEffect.putJob
          { jobId := "job-2", total := 2 * [sampleTicket].length,
            processed := 0, failed := 0, status := "in-progress",
            createdAt := "t0", updatedAt := none, errors := [] } ::
        (messagesFor "job-2" "alice" (bearerToken "Bearer tok123") "jiradc"
           ["", ""] [sampleTicket]).map AdmissionEffect.sendMessage :=
  (claim9_parse_dates_empty_tokens.2.2 "alice" "Bearer tok123" "job-2" "t0"
    "jiradc" [sampleTicket] (by decide) (by decide) (by decide)
    (Or.inr (Or.inr rfl)) (by decide) (by decide)).1

end CreateJobLambda

namespace JobStatusLambda

/-- C5: for every stored record the reader returns the snapshot whose
progress is the binary64 evaluation of Math.round(((processed + failed) /
total) * 100); progress is 0 when total = 0, and it stays in [0, 100] and
within 1 of the exact round(100 * (processed + failed) / total) whenever
processed + failed is at most total and total is at most 2^53.  (The
binary64 value can differ from the exact round at half-way points, and a
record with processed + failed above total yields progress above 100.) -/
theorem claim5_progress (store : String → Option JobStatus) (jobId : String)
    (r : JobStatus) (hid : jobId.isEmpty = false)
    (hstore : store jobId = some r) :
    (handler { jobId := some jobId } store).1
      = successResponse "Job status retrieved successfully"
          (some { record := r, progress := progressOf r })
    ∧ (r.total = 0 → progressOf r = 0)
    ∧ (r.processed + r.failed ≤ r.total → r.total ≤ 2^53 →
        progressOf r ≤ 100)
    ∧ (0 < r.total → r.processed + r.failed ≤ r.total → r.total ≤ 2^53 →
        (progressOf r : ℤ)
            ≤ round ((100 * (((r.processed + r.failed : ℕ)) : ℚ)) / (r.total : ℚ)) + 1
          ∧ round ((100 * (((r.processed + r.failed : ℕ)) : ℚ)) / (r.total : ℚ))
            ≤ (progressOf r : ℤ) + 1) := by
  refine ⟨?_, ?_, ?_, ?_⟩
  · simp [handler, hid, hstore]
  · intro h
    simp [progressOf, h]
  · intro h1 h2
    by_cases ht : 0 < r.total
    · simpa [progressOf, ht] using jsProgress_le_100 _ _ h1 ht h2
    · simp [progressOf, ht]
  · intro ht h1 h2
    have h := jsProgress_near_round (r.processed + r.failed) r.total h1 ht h2
    constructor
    · simpa [progressOf, ht] using h.1
    · simpa [progressOf, ht] using h.2

/-- C5 witness: the half-finished job, read through a store holding it. -/
theorem claim5_progress_witness :
    ("job-half".isEmpty = false)
    ∧ (handler { jobId := some "job-half" } (fun _ => some halfJob)).1
        = successResponse "Job status retrieved successfully"
            (some { record := halfJob, progress := progressOf halfJob }) :=
  ⟨by decide,
   (claim5_progress (fun _ => some halfJob) "job-half" halfJob (by decide) rfl).1⟩

set_option maxRecDepth 4000 in
/-- C5 counterexample: at 23 of 40 items the handler's binary64 arithmetic
yields progress 57, while the exact round of 100 * 23 / 40 = 57.5 is 58 —
so progress does not always equal the exact round; and the over-counted
record (2 of 1) yields progress 200, outside [0, 100]. -/
theorem claim5_progress_counterexample :
    (handler { jobId := some "job-2340" } (fun _ => some job2340)).1
      = successResponse "Job status retrieved successfully"
          (some { record := job2340, progress := 57 })
    ∧ round ((100 * (((job2340.processed + job2340.failed : ℕ)) : ℚ))
          / (job2340.total : ℚ)) = (58 : ℤ)
    ∧ 100 < progressOf overJob := by
  refine ⟨by decide, ?_, by decide⟩
  norm_num [job2340, round_eq]

end JobStatusLambda

end Elevensys
